import Mathlib

set_option maxHeartbeats 1000000
set_option linter.unusedVariables false

/-!
Shallow embedding of `src/generate_qr.py`, a batch pipeline that turns the
rows of a tabular input into QR-code image files plus an augmented output
manifest.  Pure string manipulation is translated directly; the side effects
of `main` (directory creation, image writes, progress prints, manifest write,
archive write) are recorded as an explicit ordered trace of `Effect` values,
and the global random source of `random.choices` is made explicit as a
function `picks : Nat -> Fin 36` giving the successive alphabet draws.
-/

/-- Characters removed by Python `str.strip()` for ASCII input: space, tab,
newline, carriage return, vertical tab and form feed. -/
def pyIsSpace (c : Char) : Bool :=
  c == ' ' || c == '\t' || c == '\n' || c == '\r' || c == '\x0b' || c == '\x0c'

/-- Python `str.strip()` on the underlying character list: drop whitespace
from the front, then from the back. -/
def stripList (l : List Char) : List Char :=
  ((l.dropWhile pyIsSpace).reverse.dropWhile pyIsSpace).reverse

/-- Python `str.strip()` (source line 99: `str(row["token"]).strip()`). -/
def pyStrip (s : String) : String :=
  String.mk (stripList s.data)

/-- Python `str.lower()` (ASCII case folding, as used on line 100). -/
def pyLower (s : String) : String :=
  String.mk (s.data.map Char.toLower)

/-- Python `str.rstrip('?')` (source line 104): remove every trailing `?`. -/
def pyRstripQ (s : String) : String :=
  String.mk ((s.data.reverse.dropWhile (fun c => c == '?')).reverse)

/-- Python `str.zfill(w)` for a plain decimal numeral (source line 105):
left-pad with zeros up to width `w`. -/
def zfill (s : String) (w : Nat) : String :=
  String.mk (List.replicate (w - s.length) '0') ++ s

/-- The token alphabet of `random_token`:
`string.ascii_uppercase + string.digits` (source line 44). -/
def alphabet : List Char :=
  "ABCDEFGHIJKLMNOPQRSTUVWXYZ0123456789".data

/-- `random_token` (source lines 42-45) with the random source explicit:
`picks` is the stream of alphabet draws made by `random.choices`, and `off`
is how many draws were already consumed earlier in the run. -/
def random_token (picks : Nat → Fin 36) (off len : Nat) : String :=
  String.mk ((List.range len).map (fun i => alphabet.getD (picks (off + i)).val 'A'))

/-- The condition of source line 100: `if not token or token.lower() == "nan"`,
applied to the stripped token. A token satisfying it is treated as missing. -/
def tokenMissing (s : String) : Bool :=
  pyStrip s == "" || pyLower (pyStrip s) == "nan"

/-- The URL construction of source line 104:
`f"{args.webapp_url.rstrip('?')}?token={token}"`. -/
def buildUrl (base token : String) : String :=
  pyRstripQ base ++ "?token=" ++ token

/-- A pandas DataFrame modelled as its ordered list of named columns,
each column an ordered list of cell values (cells as strings). -/
structure DF where
  cols : List (String × List String)
deriving DecidableEq, Repr

/-- Column lookup, first match (pandas `df[name]`; CSV columns are unique). -/
def lookupCol : List (String × List String) → String → List String
  | [], _ => []
  | c :: cs, nm => if c.1 == nm then c.2 else lookupCol cs nm

/-- Column presence (pandas `name in df.columns`). -/
def hasColList : List (String × List String) → String → Bool
  | [], _ => false
  | c :: cs, nm => c.1 == nm || hasColList cs nm

/-- Column assignment (pandas `df[name] = vals`): replace the column in
place when present, append it at the end when absent. -/
def setColList : List (String × List String) → String → List String →
    List (String × List String)
  | [], nm, v => [(nm, v)]
  | c :: cs, nm, v =>
    if c.1 == nm then (nm, v) :: setColList cs nm v else c :: setColList cs nm v

def DF.hasCol (df : DF) (nm : String) : Bool :=
  hasColList df.cols nm

def DF.getCol (df : DF) (nm : String) : List String :=
  lookupCol df.cols nm

def DF.setCol (df : DF) (nm : String) (v : List String) : DF :=
  ⟨setColList df.cols nm v⟩

/-- Number of rows (pandas `len(df)`). -/
def DF.nrows (df : DF) : Nat :=
  match df.cols with
  | [] => 0
  | c :: _ => c.2.length

/-- Wellformedness of a loaded table: every column has the common length. -/
def DF.Wf (df : DF) : Prop :=
  ∀ c ∈ df.cols, c.2.length = df.nrows

instance (df : DF) : Decidable df.Wf :=
  inferInstanceAs (Decidable (∀ c ∈ df.cols, c.2.length = df.nrows))

/-- One observable side effect of the run, in program order. `writeZip`
records the creation of a deflate-compressed archive at a path, holding
entries as (source path, archive name) pairs. -/
inductive Effect where
  | mkdir (dir : String)
  | writeImage (path : String) (data : String)
  | printLine (msg : String)
  | writeCsv (path : String) (df : DF)
  | writeZip (path : String) (entries : List (String × String))
deriving DecidableEq, Repr

/-- True exactly on archive-creation effects. -/
def Effect.isZip : Effect → Bool
  | .writeZip _ _ => true
  | _ => false

/-- The command-line configuration of the run (source lines 75-81),
input path omitted since the loaded table is passed directly. -/
structure Args where
  webapp_url : String
  out : String
  format : String
  token_len : Nat
  zip : Bool
  output_csv : String
deriving Repr

/-- `pathlib.Path.with_suffix(".zip")` (source line 115): replace the
extension of the last path component, or append one when there is none or
when the name is a bare dotfile. -/
def withSuffixZip (p : String) : String :=
  let l := p.data
  let rname := l.reverse.takeWhile (fun c => c != '/')
  let parent := (l.reverse.drop rname.length).reverse
  let rext := rname.takeWhile (fun c => c != '.')
  let stemR := rname.drop (rext.length + 1)
  let newName :=
    if rext.length = rname.length ∨ stemR = [] then rname.reverse ++ ".zip".data
    else stemR.reverse ++ ".zip".data
  String.mk (parent ++ newName)

/-- The per-row loop of source lines 98-108.  Arguments: the remaining
token-column cells, the 0-based position `idx` of the first of them in the
table, and the count `c` of fresh tokens generated so far (which fixes the
offset into the random stream).  Returns the stored token column cells
(updated only where a fresh token was generated, as on line 102), the
generated filenames, and the ordered effects (one image write and one
progress print per row). -/
def processRows (picks : Nat → Fin 36) (args : Args) (digits : Nat) :
    List String → Nat → Nat → List String × List String × List Effect
  | [], _, _ => ([], [], [])
  | t :: ts, idx, c =>
    if tokenMissing t then
      let tok := random_token picks (c * args.token_len) args.token_len
      let fname := zfill (toString (idx + 1)) digits ++ "_" ++ tok ++ "." ++ args.format
      let r := processRows picks args digits ts (idx + 1) (c + 1)
      (tok :: r.1, fname :: r.2.1,
        Effect.writeImage (args.out ++ "/" ++ fname) (buildUrl args.webapp_url tok) ::
          Effect.printLine ("✔ " ++ fname) :: r.2.2)
    else
      let tok := pyStrip t
      let fname := zfill (toString (idx + 1)) digits ++ "_" ++ tok ++ "." ++ args.format
      let r := processRows picks args digits ts (idx + 1) c
      (t :: r.1, fname :: r.2.1,
        Effect.writeImage (args.out ++ "/" ++ fname) (buildUrl args.webapp_url tok) ::
          Effect.printLine ("✔ " ++ fname) :: r.2.2)

/-- Source lines 89-90: create the `token` column with empty default when it
is absent.  This is the whole column normalisation the program performs. -/
def normalizeToken (df : DF) : DF :=
  if df.hasCol "token" then df
  else df.setCol "token" (List.replicate df.nrows "")

/-- The loop run on the normalised table, with `digits = len(str(len(df)))`
(source line 96) and index and fresh-token counter starting at zero. -/
def runRows (args : Args) (df : DF) (picks : Nat → Fin 36) :
    List String × List String × List Effect :=
  let d := normalizeToken df
  processRows picks args (toString d.nrows).length (d.getCol "token") 0 0

/-- The augmented table written as the output manifest (source lines 110-111):
the normalised table with the token column as left by the loop and the
`qr_file` column attached. -/
def outputDF (args : Args) (df : DF) (picks : Nat → Fin 36) : DF :=
  let d := normalizeToken df
  let r := runRows args df picks
  (d.setCol "token" r.1).setCol "qr_file" r.2.1

/-- The `main` entry point (source lines 70-119), named `mainRun` here on an already-loaded table: the required
column check of lines 86-87 aborts with the error message and an empty
effect trace; otherwise the trace is the directory creation (line 93), the
per-row effects, the manifest write and its print (lines 110-112), and, when
`--zip` was given, the archive write over the generated filenames with bare
archive names (lines 114-119) followed by its print. -/
def mainRun (args : Args) (df : DF) (picks : Nat → Fin 36) :
    List Effect × Except String Unit :=
  if df.hasCol "full_name" then
    let r := runRows args df picks
    (Effect.mkdir args.out :: r.2.2 ++
        [Effect.writeCsv args.output_csv (outputDF args df picks),
         Effect.printLine ("[done] Wrote " ++ args.output_csv)] ++
        (if args.zip then
          [Effect.writeZip (withSuffixZip args.out)
              (r.2.1.map (fun n => (args.out ++ "/" ++ n, n))),
           Effect.printLine ("[done] Created " ++ withSuffixZip args.out)]
         else []),
      Except.ok ())
  else ([], Except.error "[error] CSV måste ha kolumnen 'full_name'")

/-- The token-column cells the loop iterates over: the input's token column
after normalisation. -/
def inputTokens (df : DF) : List String :=
  (normalizeToken df).getCol "token"

/-- How many of the first `i` cells of `ts` count as missing tokens: the
number of fresh tokens generated before row `i` is processed. -/
def missingBefore (ts : List String) (i : Nat) : Nat :=
  ((ts.take i).filter tokenMissing).length

/-- The token the loop uses for row `i` in the URL and the filename, when
the loop was started with fresh-token counter `c`: the freshly generated
token for a missing cell, the stripped cell otherwise. -/
def usedTokenAt (picks : Nat → Fin 36) (len : Nat) (ts : List String) (c i : Nat) :
    String :=
  if tokenMissing (ts.getD i "") then
    random_token picks ((c + missingBefore ts i) * len) len
  else pyStrip (ts.getD i "")

/-- The token the loop leaves stored in the table for row `i`: the freshly
generated token for a missing cell, the original (unstripped) cell
otherwise. -/
def storedTokenAt (picks : Nat → Fin 36) (len : Nat) (ts : List String) (c i : Nat) :
    String :=
  if tokenMissing (ts.getD i "") then
    random_token picks ((c + missingBefore ts i) * len) len
  else ts.getD i ""

/-- The resolved token of row `i` of the run: what the Token Resolver stage
hands to the URL builder and the filename for that row. -/
def resolvedToken (args : Args) (df : DF) (picks : Nat → Fin 36) (i : Nat) : String :=
  usedTokenAt picks args.token_len (inputTokens df) 0 i

/-- Written from the specification words for the URL Builder: remove any
trailing query-delimiter characters from the base. Stated with
`List.rdropWhile`, independent of the reverse-dropWhile-reverse route the
embedded code takes. -/
def specDropTrailingDelims (s : String) : String :=
  String.mk (s.data.rdropWhile (fun c => c == '?'))

/-! ### Basic lemmas about the helper functions -/

theorem missingBefore_zero (ts : List String) : missingBefore ts 0 = 0 := rfl

theorem missingBefore_cons_succ (t : String) (ts : List String) (i : Nat) :
    missingBefore (t :: ts) (i + 1) =
      missingBefore ts i + (if tokenMissing t then 1 else 0) := by
  by_cases h : tokenMissing t <;>
    simp [missingBefore, List.filter_cons, h, Nat.add_comm]

theorem getD_mem_of_lt {α : Type} :
    ∀ (l : List α) (d : α) (i : Nat), i < l.length → l.getD i d ∈ l
  | [], _, i, h => absurd h (by simp)
  | a :: l, d, 0, _ => by simp
  | a :: l, d, i + 1, h => by
    have hi : i < l.length := by simpa using h
    simpa using Or.inr (getD_mem_of_lt l d i hi)

theorem getD_replicate_empty :
    ∀ (n i : Nat), (List.replicate n ("" : String)).getD i "" = ""
  | 0, _ => by simp
  | n + 1, 0 => rfl
  | n + 1, i + 1 => by simp [List.replicate_succ, getD_replicate_empty n i]

theorem random_token_length (picks : Nat → Fin 36) (off len : Nat) :
    (random_token picks off len).length = len := by
  show ((List.range len).map _).length = len
  simp

theorem random_token_mem (picks : Nat → Fin 36) (off len : Nat) (c : Char)
    (h : c ∈ (random_token picks off len).data) : c ∈ alphabet := by
  simp only [random_token, List.mem_map, List.mem_range] at h
  obtain ⟨i, _, rfl⟩ := h
  exact getD_mem_of_lt alphabet 'A' _ (picks (off + i)).isLt

theorem alphabet_upper_or_digit :
    ∀ c ∈ alphabet, c.isUpper = true ∨ c.isDigit = true := by decide

/-! ### Lemmas about the column operations -/

theorem lookupCol_setColList_self :
    ∀ (cols : List (String × List String)) (nm : String) (v : List String),
      lookupCol (setColList cols nm v) nm = v
  | [], nm, v => by simp [setColList, lookupCol]
  | c :: cs, nm, v => by
    by_cases h : c.1 == nm
    · simp [setColList, h, lookupCol]
    · simp [setColList, h, lookupCol, lookupCol_setColList_self cs nm v]

theorem lookupCol_setColList_ne :
    ∀ (cols : List (String × List String)) (nm nm' : String) (v : List String),
      nm' ≠ nm → lookupCol (setColList cols nm v) nm' = lookupCol cols nm'
  | [], nm, nm', v, h => by
    simp [setColList, lookupCol, Ne.symm h]
  | c :: cs, nm, nm', v, h => by
    by_cases h1 : c.1 == nm
    · have hc : c.1 = nm := by simpa using h1
      simp [setColList, h1, lookupCol, Ne.symm h, hc,
        lookupCol_setColList_ne cs nm nm' v h]
    · simp [setColList, h1, lookupCol, lookupCol_setColList_ne cs nm nm' v h]

theorem hasColList_setColList_self :
    ∀ (cols : List (String × List String)) (nm : String) (v : List String),
      hasColList (setColList cols nm v) nm = true
  | [], nm, v => by simp [setColList, hasColList]
  | c :: cs, nm, v => by
    by_cases h : c.1 == nm
    · simp [setColList, h, hasColList]
    · simp [setColList, h, hasColList, hasColList_setColList_self cs nm v]

theorem hasColList_setColList_ne :
    ∀ (cols : List (String × List String)) (nm nm' : String) (v : List String),
      nm' ≠ nm → hasColList (setColList cols nm v) nm' = hasColList cols nm'
  | [], nm, nm', v, h => by
    simp [setColList, hasColList, Ne.symm h]
  | c :: cs, nm, nm', v, h => by
    by_cases h1 : c.1 == nm
    · have hc : c.1 = nm := by simpa using h1
      simp [setColList, h1, hasColList, Ne.symm h, hc,
        hasColList_setColList_ne cs nm nm' v h]
    · simp [setColList, h1, hasColList, hasColList_setColList_ne cs nm nm' v h]

theorem lookupCol_eq_nil_of_not_hasCol :
    ∀ (cols : List (String × List String)) (nm : String),
      hasColList cols nm = false → lookupCol cols nm = []
  | [], _, _ => rfl
  | c :: cs, nm, h => by
    simp only [hasColList, Bool.or_eq_false_iff] at h
    simp [lookupCol, h.1, lookupCol_eq_nil_of_not_hasCol cs nm h.2]

theorem lookupCol_length_const :
    ∀ (cols : List (String × List String)) (nm : String) (k : Nat),
      hasColList cols nm = true → (∀ c ∈ cols, c.2.length = k) →
      (lookupCol cols nm).length = k
  | [], nm, k, h, _ => by simp [hasColList] at h
  | c :: cs, nm, k, h, hall => by
    by_cases h1 : c.1 == nm
    · simpa [lookupCol, h1] using hall c (by simp)
    · simp only [hasColList, h1, Bool.false_or] at h
      simpa [lookupCol, h1] using
        lookupCol_length_const cs nm k h (fun d hd => hall d (by simp [hd]))

theorem DF.getCol_setCol_self (df : DF) (nm : String) (v : List String) :
    (df.setCol nm v).getCol nm = v :=
  lookupCol_setColList_self df.cols nm v

theorem DF.getCol_setCol_ne (df : DF) (nm nm' : String) (v : List String)
    (h : nm' ≠ nm) : (df.setCol nm v).getCol nm' = df.getCol nm' :=
  lookupCol_setColList_ne df.cols nm nm' v h

theorem DF.hasCol_setCol_self (df : DF) (nm : String) (v : List String) :
    (df.setCol nm v).hasCol nm = true :=
  hasColList_setColList_self df.cols nm v

theorem DF.hasCol_setCol_ne (df : DF) (nm nm' : String) (v : List String)
    (h : nm' ≠ nm) : (df.setCol nm v).hasCol nm' = df.hasCol nm' :=
  hasColList_setColList_ne df.cols nm nm' v h

/-! ### Lemmas about the normalisation stage -/

theorem normalizeToken_nrows (df : DF) :
    (normalizeToken df).nrows = df.nrows := by
  unfold normalizeToken
  by_cases h : df.hasCol "token"
  · rw [if_pos h]
  · rw [if_neg h]
    obtain ⟨cols⟩ := df
    rcases cols with _ | ⟨c, cs⟩
    · rfl
    · have h1 : (c.1 == "token") = false := by
        simp only [DF.hasCol, hasColList, Bool.or_eq_true, not_or] at h
        simpa using h.1
      show DF.nrows ⟨setColList (c :: cs) "token" _⟩ = _
      simp [setColList, h1, DF.nrows]

theorem inputTokens_length (df : DF) (hwf : df.Wf) :
    (inputTokens df).length = df.nrows := by
  unfold inputTokens normalizeToken
  by_cases h : df.hasCol "token"
  · simp only [h, if_true]
    exact lookupCol_length_const df.cols "token" df.nrows h hwf
  · simp only [h, Bool.false_eq_true, if_false]
    rw [DF.getCol_setCol_self]
    simp

theorem inputTokens_getD (df : DF) (i : Nat) :
    (inputTokens df).getD i "" = (df.getCol "token").getD i "" := by
  unfold inputTokens normalizeToken
  by_cases h : df.hasCol "token"
  · simp [h]
  · rw [if_neg h]
    rw [DF.getCol_setCol_self, getD_replicate_empty]
    have hnil : df.getCol "token" = [] := by
      show lookupCol df.cols "token" = []
      exact lookupCol_eq_nil_of_not_hasCol df.cols "token" (by simpa [DF.hasCol] using h)
    rw [hnil]
    rfl

/-! ### Shift lemmas for the per-row spec functions -/

theorem storedTokenAt_cons_succ (picks : Nat → Fin 36) (len : Nat) (t : String)
    (ts : List String) (c i : Nat) :
    storedTokenAt picks len (t :: ts) c (i + 1) =
      storedTokenAt picks len ts (c + (if tokenMissing t then 1 else 0)) i := by
  have har : c + missingBefore (t :: ts) (i + 1) =
      c + (if tokenMissing t then 1 else 0) + missingBefore ts i := by
    by_cases h : tokenMissing t <;> simp [missingBefore_cons_succ, h, Nat.add_assoc, Nat.add_comm, Nat.add_left_comm]
  unfold storedTokenAt
  rw [List.getD_cons_succ, har]

theorem usedTokenAt_cons_succ (picks : Nat → Fin 36) (len : Nat) (t : String)
    (ts : List String) (c i : Nat) :
    usedTokenAt picks len (t :: ts) c (i + 1) =
      usedTokenAt picks len ts (c + (if tokenMissing t then 1 else 0)) i := by
  have har : c + missingBefore (t :: ts) (i + 1) =
      c + (if tokenMissing t then 1 else 0) + missingBefore ts i := by
    by_cases h : tokenMissing t <;> simp [missingBefore_cons_succ, h, Nat.add_assoc, Nat.add_comm, Nat.add_left_comm]
  unfold usedTokenAt
  rw [List.getD_cons_succ, har]

/-! ### Structural lemmas about the per-row loop -/

theorem processRows_fst_length (picks : Nat → Fin 36) (args : Args) (digits : Nat) :
    ∀ (ts : List String) (idx c : Nat),
      (processRows picks args digits ts idx c).1.length = ts.length
  | [], _, _ => rfl
  | t :: ts, idx, c => by
    by_cases h : tokenMissing t
    · simp [processRows, h, processRows_fst_length picks args digits ts (idx + 1) (c + 1)]
    · simp [processRows, h, processRows_fst_length picks args digits ts (idx + 1) c]

theorem processRows_fnames_length (picks : Nat → Fin 36) (args : Args) (digits : Nat) :
    ∀ (ts : List String) (idx c : Nat),
      (processRows picks args digits ts idx c).2.1.length = ts.length
  | [], _, _ => rfl
  | t :: ts, idx, c => by
    by_cases h : tokenMissing t
    · simp [processRows, h, processRows_fnames_length picks args digits ts (idx + 1) (c + 1)]
    · simp [processRows, h, processRows_fnames_length picks args digits ts (idx + 1) c]

theorem processRows_effects_length (picks : Nat → Fin 36) (args : Args) (digits : Nat) :
    ∀ (ts : List String) (idx c : Nat),
      (processRows picks args digits ts idx c).2.2.length = 2 * ts.length
  | [], _, _ => rfl
  | t :: ts, idx, c => by
    by_cases h : tokenMissing t
    · simp [processRows, h,
        processRows_effects_length picks args digits ts (idx + 1) (c + 1), Nat.mul_succ]
    · simp [processRows, h,
        processRows_effects_length picks args digits ts (idx + 1) c, Nat.mul_succ]

theorem processRows_fst_getD (picks : Nat → Fin 36) (args : Args) (digits : Nat) :
    ∀ (ts : List String) (idx c i : Nat), i < ts.length →
      (processRows picks args digits ts idx c).1.getD i "" =
        storedTokenAt picks args.token_len ts c i
  | [], _, _, _, h => absurd h (by simp)
  | t :: ts, idx, c, 0, _ => by
    by_cases h : tokenMissing t <;>
      simp [processRows, h, storedTokenAt, missingBefore_zero]
  | t :: ts, idx, c, i + 1, h => by
    have hi : i < ts.length := by simp at h; omega
    rw [storedTokenAt_cons_succ]
    by_cases hm : tokenMissing t
    · simpa [processRows, hm] using
        processRows_fst_getD picks args digits ts (idx + 1) (c + 1) i hi
    · simpa [processRows, hm] using
        processRows_fst_getD picks args digits ts (idx + 1) c i hi

theorem processRows_fnames_getD (picks : Nat → Fin 36) (args : Args) (digits : Nat) :
    ∀ (ts : List String) (idx c i : Nat), i < ts.length →
      (processRows picks args digits ts idx c).2.1.getD i "" =
        zfill (toString (idx + i + 1)) digits ++ "_" ++
          usedTokenAt picks args.token_len ts c i ++ "." ++ args.format
  | [], _, _, _, h => absurd h (by simp)
  | t :: ts, idx, c, 0, _ => by
    by_cases h : tokenMissing t <;>
      simp [processRows, h, usedTokenAt, missingBefore_zero]
  | t :: ts, idx, c, i + 1, h => by
    have hi : i < ts.length := by simp at h; omega
    have harith : idx + 1 + i + 1 = idx + (i + 1) + 1 := by omega
    rw [usedTokenAt_cons_succ]
    by_cases hm : tokenMissing t
    · have ih := processRows_fnames_getD picks args digits ts (idx + 1) (c + 1) i hi
      rw [harith] at ih
      simpa [processRows, hm] using ih
    · have ih := processRows_fnames_getD picks args digits ts (idx + 1) c i hi
      rw [harith] at ih
      simpa [processRows, hm] using ih

theorem processRows_effects_getD (picks : Nat → Fin 36) (args : Args) (digits : Nat) :
    ∀ (ts : List String) (idx c i : Nat), i < ts.length →
      (processRows picks args digits ts idx c).2.2.getD (2 * i) (Effect.printLine "") =
        Effect.writeImage
          (args.out ++ "/" ++ (zfill (toString (idx + i + 1)) digits ++ "_" ++
            usedTokenAt picks args.token_len ts c i ++ "." ++ args.format))
          (buildUrl args.webapp_url (usedTokenAt picks args.token_len ts c i))
  | [], _, _, _, h => absurd h (by simp)
  | t :: ts, idx, c, 0, _ => by
    by_cases h : tokenMissing t <;>
      simp [processRows, h, usedTokenAt, missingBefore_zero]
  | t :: ts, idx, c, i + 1, h => by
    have hi : i < ts.length := by simp at h; omega
    have harith : idx + 1 + i + 1 = idx + (i + 1) + 1 := by omega
    have htwo : 2 * (i + 1) = 2 * i + 1 + 1 := by omega
    rw [usedTokenAt_cons_succ, htwo]
    by_cases hm : tokenMissing t
    · have ih := processRows_effects_getD picks args digits ts (idx + 1) (c + 1) i hi
      rw [harith] at ih
      simpa [processRows, hm] using ih
    · have ih := processRows_effects_getD picks args digits ts (idx + 1) c i hi
      rw [harith] at ih
      simpa [processRows, hm] using ih

theorem processRows_effects_isZip (picks : Nat → Fin 36) (args : Args) (digits : Nat) :
    ∀ (ts : List String) (idx c : Nat) (e : Effect),
      e ∈ (processRows picks args digits ts idx c).2.2 → e.isZip = false
  | [], _, _, e, h => absurd h (by simp [processRows])
  | t :: ts, idx, c, e, h => by
    by_cases hm : tokenMissing t
    · simp only [processRows, hm, if_true, List.mem_cons] at h
      rcases h with rfl | rfl | h
      · rfl
      · rfl
      · exact processRows_effects_isZip picks args digits ts (idx + 1) (c + 1) e h
    · simp only [processRows, hm, Bool.false_eq_true, if_false, List.mem_cons] at h
      rcases h with rfl | rfl | h
      · rfl
      · rfl
      · exact processRows_effects_isZip picks args digits ts (idx + 1) c e h

/-! ### Bridge lemmas from the driver to the per-row spec functions -/

theorem runRows_tokens (args : Args) (df : DF) (picks : Nat → Fin 36) :
    runRows args df picks =
      processRows picks args (toString (normalizeToken df).nrows).length
        (inputTokens df) 0 0 := rfl

theorem outputDF_getCol_qr (args : Args) (df : DF) (picks : Nat → Fin 36) :
    (outputDF args df picks).getCol "qr_file" = (runRows args df picks).2.1 := by
  simp only [outputDF]
  exact DF.getCol_setCol_self _ _ _

theorem outputDF_getCol_token (args : Args) (df : DF) (picks : Nat → Fin 36) :
    (outputDF args df picks).getCol "token" = (runRows args df picks).1 := by
  simp only [outputDF]
  rw [DF.getCol_setCol_ne _ _ _ _ (by decide)]
  exact DF.getCol_setCol_self _ _ _

theorem outputDF_token_getD (args : Args) (df : DF) (picks : Nat → Fin 36)
    (hwf : df.Wf) (i : Nat) (hi : i < df.nrows) :
    ((outputDF args df picks).getCol "token").getD i "" =
      storedTokenAt picks args.token_len (inputTokens df) 0 i := by
  rw [outputDF_getCol_token, runRows_tokens]
  exact processRows_fst_getD picks args _ (inputTokens df) 0 0 i
    (by rw [inputTokens_length df hwf]; exact hi)

theorem outputDF_qr_getD (args : Args) (df : DF) (picks : Nat → Fin 36)
    (hwf : df.Wf) (i : Nat) (hi : i < df.nrows) :
    ((outputDF args df picks).getCol "qr_file").getD i "" =
      zfill (toString (i + 1)) (toString df.nrows).length ++ "_" ++
        usedTokenAt picks args.token_len (inputTokens df) 0 i ++ "." ++ args.format := by
  rw [outputDF_getCol_qr, runRows_tokens, normalizeToken_nrows df]
  have h := processRows_fnames_getD picks args
    (toString (normalizeToken df).nrows).length (inputTokens df) 0 0 i
    (by rw [inputTokens_length df hwf]; exact hi)
  rw [normalizeToken_nrows df] at h
  simpa using h

theorem outputDF_qr_length (args : Args) (df : DF) (picks : Nat → Fin 36)
    (hwf : df.Wf) :
    ((outputDF args df picks).getCol "qr_file").length = df.nrows := by
  rw [outputDF_getCol_qr, runRows_tokens, processRows_fnames_length,
    inputTokens_length df hwf]

theorem outputDF_token_length (args : Args) (df : DF) (picks : Nat → Fin 36)
    (hwf : df.Wf) :
    ((outputDF args df picks).getCol "token").length = df.nrows := by
  rw [outputDF_getCol_token, runRows_tokens, processRows_fst_length,
    inputTokens_length df hwf]

theorem mainRun_ok (args : Args) (df : DF) (picks : Nat → Fin 36)
    (h : df.hasCol "full_name" = true) :
    mainRun args df picks =
      (Effect.mkdir args.out :: (runRows args df picks).2.2 ++
        [Effect.writeCsv args.output_csv (outputDF args df picks),
         Effect.printLine ("[done] Wrote " ++ args.output_csv)] ++
        (if args.zip then
          [Effect.writeZip (withSuffixZip args.out)
              ((runRows args df picks).2.1.map (fun n => (args.out ++ "/" ++ n, n))),
           Effect.printLine ("[done] Created " ++ withSuffixZip args.out)]
         else []),
       Except.ok ()) := by
  simp [mainRun, h]

theorem mainRun_trace (args : Args) (df : DF) (picks : Nat → Fin 36)
    (h : df.hasCol "full_name" = true) :
    (mainRun args df picks).1 =
      Effect.mkdir args.out :: (runRows args df picks).2.2 ++
        [Effect.writeCsv args.output_csv (outputDF args df picks),
         Effect.printLine ("[done] Wrote " ++ args.output_csv)] ++
        (if args.zip then
          [Effect.writeZip (withSuffixZip args.out)
              ((runRows args df picks).2.1.map (fun n => (args.out ++ "/" ++ n, n))),
           Effect.printLine ("[done] Created " ++ withSuffixZip args.out)]
         else []) := by
  rw [mainRun_ok args df picks h]

theorem mainRun_writesCsv (args : Args) (df : DF) (picks : Nat → Fin 36)
    (h : df.hasCol "full_name" = true) :
    Effect.writeCsv args.output_csv (outputDF args df picks) ∈ (mainRun args df picks).1 := by
  rw [mainRun_ok args df picks h]
  simp

theorem usedTokenAt_of_present (args : Args) (df : DF) (picks : Nat → Fin 36) (i : Nat)
    (hp : tokenMissing ((df.getCol "token").getD i "") = false) :
    usedTokenAt picks args.token_len (inputTokens df) 0 i =
      pyStrip ((df.getCol "token").getD i "") := by
  unfold usedTokenAt
  rw [inputTokens_getD]
  rw [if_neg (by rw [Bool.not_eq_true]; exact hp)]

theorem stored_token_of_present (args : Args) (df : DF) (picks : Nat → Fin 36)
    (hwf : df.Wf) (i : Nat) (hi : i < df.nrows)
    (hp : tokenMissing ((df.getCol "token").getD i "") = false) :
    ((outputDF args df picks).getCol "token").getD i "" =
      (df.getCol "token").getD i "" := by
  rw [outputDF_token_getD args df picks hwf i hi]
  unfold storedTokenAt
  rw [inputTokens_getD]
  rw [if_neg (by rw [Bool.not_eq_true]; exact hp)]

theorem stored_token_of_missing (args : Args) (df : DF) (picks : Nat → Fin 36)
    (hwf : df.Wf) (i : Nat) (hi : i < df.nrows)
    (hp : tokenMissing ((df.getCol "token").getD i "") = true) :
    ((outputDF args df picks).getCol "token").getD i "" =
      random_token picks (missingBefore (inputTokens df) i * args.token_len)
        args.token_len := by
  rw [outputDF_token_getD args df picks hwf i hi]
  unfold storedTokenAt
  rw [inputTokens_getD]
  rw [if_pos hp, Nat.zero_add]

/-! ### Concrete inputs used by witnesses and counterexamples -/

/-- A concrete configuration: base URL ending in a delimiter, png format,
default token length 8, archive requested. -/
def args0 : Args := ⟨"https://example.com/x?", "qr_codes", "png", 8, true, "output.csv"⟩

/-- A concrete random source: always draw the first alphabet character. -/
def picks0 : Nat → Fin 36 := fun _ => 0

/-- A concrete valid table: two rows, one with an existing token, one with a
blank token. -/
def dfW : DF := ⟨[("full_name", ["Alice", "Bob"]), ("token", ["ABC123", ""])]⟩

/-- A concrete valid table whose only token has surrounding whitespace. -/
def df3 : DF := ⟨[("full_name", ["Alice"]), ("token", [" ABC "])]⟩

/-- A concrete table lacking the required `full_name` column. -/
def df4 : DF := ⟨[("name", ["Alice"])]⟩

/-- A concrete valid table lacking both optional columns. -/
def df8 : DF := ⟨[("full_name", ["A"])]⟩

/-- A concrete valid table whose token is the placeholder in mixed case. -/
def df9 : DF := ⟨[("full_name", ["A"]), ("token", ["NaN"])]⟩

/-! ### The claims -/

/-- Claim C1: for every input table that passes validation, the output
manifest's `qr_file` column has exactly one entry per input row, in row
order, and the entry for the row at 1-based position `i + 1` is
`zfill(i+1, width of the decimal row count) ++ "_" ++ resolved token ++ "."
++ format`, where the format is png or svg as selected. -/
theorem qr_file_column_spec (args : Args) (df : DF) (picks : Nat → Fin 36)
    (hwf : df.Wf) (hfn : df.hasCol "full_name" = true)
    (hfmt : args.format = "png" ∨ args.format = "svg") :
    Effect.writeCsv args.output_csv (outputDF args df picks) ∈ (mainRun args df picks).1 ∧
    ((outputDF args df picks).getCol "qr_file").length = df.nrows ∧
    ∀ i, i < df.nrows →
      ((outputDF args df picks).getCol "qr_file").getD i "" =
        zfill (toString (i + 1)) (toString df.nrows).length ++ "_" ++
          resolvedToken args df picks i ++ "." ++ args.format := by
  refine ⟨mainRun_writesCsv args df picks hfn, outputDF_qr_length args df picks hwf, ?_⟩
  intro i hi
  rw [outputDF_qr_getD args df picks hwf i hi]
  rfl

theorem qr_file_column_spec_witness :
    dfW.Wf ∧ dfW.hasCol "full_name" = true ∧
    (args0.format = "png" ∨ args0.format = "svg") ∧
    ((outputDF args0 dfW picks0).getCol "qr_file").length = dfW.nrows ∧
    ((outputDF args0 dfW picks0).getCol "qr_file").getD 0 "" =
      zfill (toString (0 + 1)) (toString dfW.nrows).length ++ "_" ++
        resolvedToken args0 dfW picks0 0 ++ "." ++ args0.format ∧
    ((outputDF args0 dfW picks0).getCol "qr_file").getD 1 "" =
      zfill (toString (1 + 1)) (toString dfW.nrows).length ++ "_" ++
        resolvedToken args0 dfW picks0 1 ++ "." ++ args0.format :=
  ⟨by decide, by decide, by decide,
    (qr_file_column_spec args0 dfW picks0 (by decide) (by decide) (by decide)).2.1,
    (qr_file_column_spec args0 dfW picks0 (by decide) (by decide) (by decide)).2.2 0
      (by decide),
    (qr_file_column_spec args0 dfW picks0 (by decide) (by decide) (by decide)).2.2 1
      (by decide)⟩

/-- Claim C2: for every row whose input token is non-blank after trimming
and is not the `nan` placeholder, the token column of the output manifest
equals the input token value exactly, character for character, untrimmed. -/
theorem manifest_token_identity (args : Args) (df : DF) (picks : Nat → Fin 36)
    (hwf : df.Wf) (hfn : df.hasCol "full_name" = true) (i : Nat) (hi : i < df.nrows)
    (hp : tokenMissing ((df.getCol "token").getD i "") = false) :
    ((outputDF args df picks).getCol "token").getD i "" =
      (df.getCol "token").getD i "" :=
  stored_token_of_present args df picks hwf i hi hp

theorem manifest_token_identity_witness :
    dfW.Wf ∧ dfW.hasCol "full_name" = true ∧ 0 < dfW.nrows ∧
    tokenMissing ((dfW.getCol "token").getD 0 "") = false ∧
    ((outputDF args0 dfW picks0).getCol "token").getD 0 "" =
      (dfW.getCol "token").getD 0 "" :=
  ⟨by decide, by decide, by decide, by decide,
    manifest_token_identity args0 dfW picks0 (by decide) (by decide) 0 (by decide)
      (by decide)⟩

/-- Claim C3 counterexample: for the row with token `" ABC "` the resolved
(trimmed) value is `"ABC"`, but the output manifest's token column still
holds `" ABC "`: the Token Resolver does not write the trimmed value back to
the table, refuting the claim that the manifest records the trimmed value. -/
theorem resolver_writeback_cex :
    pyStrip ((df3.getCol "token").getD 0 "") = "ABC" ∧
    ((outputDF args0 df3 picks0).getCol "token").getD 0 "" = " ABC " ∧
    (" ABC " : String) ≠ "ABC" := by decide

/-- Claim C3 amended: for every row whose token is semantically present, the
resolver hands the trimmed value to the URL builder and the filename (so the
`qr_file` entry embeds the trimmed token), but it does not update the
table's stored token: the output manifest records the original, untrimmed
input value for that row. -/
theorem resolver_amended_spec (args : Args) (df : DF) (picks : Nat → Fin 36)
    (hwf : df.Wf) (hfn : df.hasCol "full_name" = true) (i : Nat) (hi : i < df.nrows)
    (hp : tokenMissing ((df.getCol "token").getD i "") = false) :
    resolvedToken args df picks i = pyStrip ((df.getCol "token").getD i "") ∧
    ((outputDF args df picks).getCol "qr_file").getD i "" =
      zfill (toString (i + 1)) (toString df.nrows).length ++ "_" ++
        pyStrip ((df.getCol "token").getD i "") ++ "." ++ args.format ∧
    ((outputDF args df picks).getCol "token").getD i "" =
      (df.getCol "token").getD i "" := by
  refine ⟨usedTokenAt_of_present args df picks i hp, ?_,
    stored_token_of_present args df picks hwf i hi hp⟩
  rw [outputDF_qr_getD args df picks hwf i hi, usedTokenAt_of_present args df picks i hp]

theorem resolver_amended_spec_witness :
    df3.Wf ∧ df3.hasCol "full_name" = true ∧ 0 < df3.nrows ∧
    tokenMissing ((df3.getCol "token").getD 0 "") = false ∧
    (resolvedToken args0 df3 picks0 0 = pyStrip ((df3.getCol "token").getD 0 "") ∧
     ((outputDF args0 df3 picks0).getCol "qr_file").getD 0 "" =
       zfill (toString (0 + 1)) (toString df3.nrows).length ++ "_" ++
         pyStrip ((df3.getCol "token").getD 0 "") ++ "." ++ args0.format ∧
     ((outputDF args0 df3 picks0).getCol "token").getD 0 "" =
       (df3.getCol "token").getD 0 "") :=
  ⟨by decide, by decide, by decide, by decide,
    resolver_amended_spec args0 df3 picks0 (by decide) (by decide) 0 (by decide)
      (by decide)⟩

/-- Claim C4: if the input table lacks the required `full_name` column, the
run aborts with the descriptive error message and an error outcome, with an
empty effect trace: no directory creation, no image write, and no manifest
write has happened. -/
theorem missing_column_aborts (args : Args) (df : DF) (picks : Nat → Fin 36)
    (h : df.hasCol "full_name" = false) :
    (mainRun args df picks).2 =
      Except.error "[error] CSV måste ha kolumnen 'full_name'" ∧
    (mainRun args df picks).1 = [] := by
  constructor <;> simp [mainRun, h]

theorem missing_column_aborts_witness :
    df4.hasCol "full_name" = false ∧
    ((mainRun args0 df4 picks0).2 =
       Except.error "[error] CSV måste ha kolumnen 'full_name'" ∧
     (mainRun args0 df4 picks0).1 = []) :=
  ⟨by decide, missing_column_aborts args0 df4 picks0 (by decide)⟩

/-- Claim C5: for every row whose input token is blank, missing or the
placeholder, the token recorded in the output manifest for that row has
exactly the configured length and consists only of uppercase ASCII letters
and decimal digits. -/
theorem generated_token_shape (args : Args) (df : DF) (picks : Nat → Fin 36)
    (hwf : df.Wf) (hfn : df.hasCol "full_name" = true) (i : Nat) (hi : i < df.nrows)
    (hp : tokenMissing ((df.getCol "token").getD i "") = true) :
    (((outputDF args df picks).getCol "token").getD i "").length = args.token_len ∧
    ∀ c ∈ (((outputDF args df picks).getCol "token").getD i "").data,
      c.isUpper = true ∨ c.isDigit = true := by
  rw [stored_token_of_missing args df picks hwf i hi hp]
  refine ⟨random_token_length picks _ _, ?_⟩
  intro c hc
  exact alphabet_upper_or_digit c (random_token_mem picks _ _ c hc)

theorem generated_token_shape_witness :
    dfW.Wf ∧ dfW.hasCol "full_name" = true ∧ 1 < dfW.nrows ∧
    tokenMissing ((dfW.getCol "token").getD 1 "") = true ∧
    ((((outputDF args0 dfW picks0).getCol "token").getD 1 "").length =
        args0.token_len ∧
     ∀ c ∈ (((outputDF args0 dfW picks0).getCol "token").getD 1 "").data,
       c.isUpper = true ∨ c.isDigit = true) :=
  ⟨by decide, by decide, by decide, by decide,
    generated_token_shape args0 dfW picks0 (by decide) (by decide) 1 (by decide)
      (by decide)⟩

/-- Claim C6: for every base URL string and every resolved token, the URL
Builder produces exactly the base with any trailing query-delimiter
characters removed, followed by `?token=` and the token; it is a total pure
function that never inspects or validates the base otherwise. -/
theorem buildUrl_spec (base token : String) :
    buildUrl base token = specDropTrailingDelims base ++ "?token=" ++ token := rfl

/-- Claim C7: when archive creation is requested the trace ends with exactly
one archive-creation effect, named after the image directory with the `.zip`
extension, whose entries are precisely the generated image files under their
bare filenames, placed after every image write and after the manifest write;
when it is not requested, no archive effect occurs anywhere. -/
theorem archive_creation (args : Args) (df : DF) (picks : Nat → Fin 36)
    (hfn : df.hasCol "full_name" = true) :
    ∃ pre : List Effect,
      (mainRun args df picks).1 =
        pre ++ (if args.zip then
          [Effect.writeZip (withSuffixZip args.out)
              (((outputDF args df picks).getCol "qr_file").map
                (fun n => (args.out ++ "/" ++ n, n))),
           Effect.printLine ("[done] Created " ++ withSuffixZip args.out)]
         else []) ∧
      (∀ e ∈ pre, e.isZip = false) ∧
      Effect.writeCsv args.output_csv (outputDF args df picks) ∈ pre := by
  refine ⟨Effect.mkdir args.out :: (runRows args df picks).2.2 ++
      [Effect.writeCsv args.output_csv (outputDF args df picks),
       Effect.printLine ("[done] Wrote " ++ args.output_csv)], ?_, ?_, ?_⟩
  · rw [mainRun_trace args df picks hfn, outputDF_getCol_qr]
  · intro e he
    rcases List.mem_cons.mp he with rfl | he2
    · rfl
    rcases List.mem_append.mp he2 with he3 | he4
    · rw [runRows_tokens] at he3
      exact processRows_effects_isZip picks args _ _ _ _ e he3
    rcases List.mem_cons.mp he4 with rfl | he5
    · rfl
    rcases List.mem_cons.mp he5 with rfl | he6
    · rfl
    exact absurd he6 (List.not_mem_nil e)
  · simp

theorem archive_creation_witness :
    dfW.hasCol "full_name" = true ∧
    ∃ pre : List Effect,
      (mainRun args0 dfW picks0).1 =
        pre ++ (if args0.zip then
          [Effect.writeZip (withSuffixZip args0.out)
              (((outputDF args0 dfW picks0).getCol "qr_file").map
                (fun n => (args0.out ++ "/" ++ n, n))),
           Effect.printLine ("[done] Created " ++ withSuffixZip args0.out)]
         else []) ∧
      (∀ e ∈ pre, e.isZip = false) ∧
      Effect.writeCsv args0.output_csv (outputDF args0 dfW picks0) ∈ pre :=
  ⟨by decide, archive_creation args0 dfW picks0 (by decide)⟩

/-- Claim C8 counterexample: for a table lacking both optional columns, the
normalisation stage creates `token` but never creates `email`: neither the
normalised table nor the final output manifest has an `email` column,
refuting the claim that every absent optional column is created. -/
theorem email_not_normalized_cex :
    (normalizeToken df8).hasCol "email" = false ∧
    (outputDF args0 df8 picks0).hasCol "email" = false := by decide

/-- Claim C8 amended: only the `token` column is normalised: when it is
absent it is created and filled with the empty default before processing,
while the presence of the `email` column is left exactly as in the input
(the program never creates or touches `email`). -/
theorem token_only_normalization (df : DF) (h : df.hasCol "token" = false) :
    (normalizeToken df).hasCol "token" = true ∧
    (normalizeToken df).getCol "token" = List.replicate df.nrows "" ∧
    (normalizeToken df).hasCol "email" = df.hasCol "email" := by
  unfold normalizeToken
  rw [if_neg (by rw [h]; exact Bool.false_ne_true)]
  exact ⟨DF.hasCol_setCol_self _ _ _, DF.getCol_setCol_self _ _ _,
    DF.hasCol_setCol_ne _ _ _ _ (by decide)⟩

theorem token_only_normalization_witness :
    df8.hasCol "token" = false ∧
    ((normalizeToken df8).hasCol "token" = true ∧
     (normalizeToken df8).getCol "token" = List.replicate df8.nrows "" ∧
     (normalizeToken df8).hasCol "email" = df8.hasCol "email") :=
  ⟨by decide, token_only_normalization df8 (by decide)⟩

/-- Claim C9: the placeholder test is case-insensitive: a token whose
stripped form lower-cases to `nan` counts as missing, and the output
manifest records for that row the freshly generated random token, exactly
the token an absent value at the same position would have received. -/
theorem nan_placeholder_case_insensitive (args : Args) (df : DF) (picks : Nat → Fin 36)
    (hwf : df.Wf) (hfn : df.hasCol "full_name" = true) (i : Nat) (hi : i < df.nrows)
    (hp : pyLower (pyStrip ((df.getCol "token").getD i "")) = "nan") :
    tokenMissing ((df.getCol "token").getD i "") = true ∧
    ((outputDF args df picks).getCol "token").getD i "" =
      random_token picks (missingBefore (inputTokens df) i * args.token_len)
        args.token_len := by
  have hm : tokenMissing ((df.getCol "token").getD i "") = true := by
    unfold tokenMissing
    rw [hp]
    simp
  exact ⟨hm, stored_token_of_missing args df picks hwf i hi hm⟩

theorem nan_placeholder_case_insensitive_witness :
    df9.Wf ∧ df9.hasCol "full_name" = true ∧ 0 < df9.nrows ∧
    pyLower (pyStrip ((df9.getCol "token").getD 0 "")) = "nan" ∧
    (tokenMissing ((df9.getCol "token").getD 0 "") = true ∧
     ((outputDF args0 df9 picks0).getCol "token").getD 0 "" =
       random_token picks0 (missingBefore (inputTokens df9) 0 * args0.token_len)
         args0.token_len) :=
  ⟨by decide, by decide, by decide, by decide,
    nan_placeholder_case_insensitive args0 df9 picks0 (by decide) (by decide) 0
      (by decide) (by decide)⟩

/-- Claim C10: for every row whose token is present but carries surrounding
whitespace, the `qr_file` entry and the URL handed to the renderer embed the
trimmed token, while the manifest's token column keeps the untrimmed input,
so the token inside the filename differs from the token column of that row. -/
theorem trimmed_file_untrimmed_manifest (args : Args) (df : DF) (picks : Nat → Fin 36)
    (hwf : df.Wf) (hfn : df.hasCol "full_name" = true) (i : Nat) (hi : i < df.nrows)
    (hp : tokenMissing ((df.getCol "token").getD i "") = false)
    (hws : pyStrip ((df.getCol "token").getD i "") ≠ (df.getCol "token").getD i "") :
    ((outputDF args df picks).getCol "qr_file").getD i "" =
      zfill (toString (i + 1)) (toString df.nrows).length ++ "_" ++
        pyStrip ((df.getCol "token").getD i "") ++ "." ++ args.format ∧
    (mainRun args df picks).1.getD (1 + 2 * i) (Effect.printLine "") =
      Effect.writeImage
        (args.out ++ "/" ++ (zfill (toString (i + 1)) (toString df.nrows).length ++
          "_" ++ pyStrip ((df.getCol "token").getD i "") ++ "." ++ args.format))
        (buildUrl args.webapp_url (pyStrip ((df.getCol "token").getD i ""))) ∧
    ((outputDF args df picks).getCol "token").getD i "" =
      (df.getCol "token").getD i "" ∧
    ((outputDF args df picks).getCol "token").getD i "" ≠
      pyStrip ((df.getCol "token").getD i "") := by
  have hlen : (runRows args df picks).2.2.length = 2 * df.nrows := by
    rw [runRows_tokens, processRows_effects_length, inputTokens_length df hwf]
  have h3 := stored_token_of_present args df picks hwf i hi hp
  refine ⟨?_, ?_, h3, ?_⟩
  · rw [outputDF_qr_getD args df picks hwf i hi,
      usedTokenAt_of_present args df picks i hp]
  · have htrace : (mainRun args df picks).1.getD (1 + 2 * i) (Effect.printLine "") =
        (runRows args df picks).2.2.getD (2 * i) (Effect.printLine "") := by
      rw [mainRun_trace args df picks hfn]
      have h1 : 1 + 2 * i = 2 * i + 1 := by omega
      rw [h1]
      rw [List.getD_append _ _ _ _ (by simp [List.length_append, hlen]; omega)]
      rw [List.getD_append _ _ _ _ (by simp [hlen]; omega)]
      rw [List.getD_cons_succ]
    rw [htrace, runRows_tokens, normalizeToken_nrows df]
    have he := processRows_effects_getD picks args
      (toString (normalizeToken df).nrows).length (inputTokens df) 0 0 i
      (by rw [inputTokens_length df hwf]; exact hi)
    rw [normalizeToken_nrows df, usedTokenAt_of_present args df picks i hp] at he
    simpa using he
  · rw [h3]
    exact Ne.symm hws

theorem trimmed_file_untrimmed_manifest_witness :
    df3.Wf ∧ df3.hasCol "full_name" = true ∧ 0 < df3.nrows ∧
    tokenMissing ((df3.getCol "token").getD 0 "") = false ∧
    pyStrip ((df3.getCol "token").getD 0 "") ≠ (df3.getCol "token").getD 0 "" ∧
    (((outputDF args0 df3 picks0).getCol "qr_file").getD 0 "" =
       zfill (toString (0 + 1)) (toString df3.nrows).length ++ "_" ++
         pyStrip ((df3.getCol "token").getD 0 "") ++ "." ++ args0.format ∧
     (mainRun args0 df3 picks0).1.getD (1 + 2 * 0) (Effect.printLine "") =
       Effect.writeImage
         (args0.out ++ "/" ++ (zfill (toString (0 + 1)) (toString df3.nrows).length ++
           "_" ++ pyStrip ((df3.getCol "token").getD 0 "") ++ "." ++ args0.format))
         (buildUrl args0.webapp_url (pyStrip ((df3.getCol "token").getD 0 ""))) ∧
     ((outputDF args0 df3 picks0).getCol "token").getD 0 "" =
       (df3.getCol "token").getD 0 "" ∧
     ((outputDF args0 df3 picks0).getCol "token").getD 0 "" ≠
       pyStrip ((df3.getCol "token").getD 0 "")) :=
  ⟨by decide, by decide, by decide, by decide, by decide,
    trimmed_file_untrimmed_manifest args0 df3 picks0 (by decide) (by decide) 0
      (by decide) (by decide) (by decide)⟩
